import Mathlib

/-!
Shallow embedding of the track-resolution and state-replication engine of
the spotifytoytm repository (file spotifytoytm.py).

Modelling conventions:
* Python strings are modelled as String, and a Python value that may be a
  string or None is modelled as Option String.
* A raised Python exception is Except.error carrying a PyError.
* Remote collaborators (the YTMusic search, the rate-song write, the
  liked-songs counter) are oracles passed in as functions, indexed by call
  number where the call sequence matters (retry counting, polling).
* Thread-pool concurrency in video_ids_for_tracks is modelled by running
  the chunk workers sequentially: each worker stores the value resolve t
  into the shared dict under the track value t itself, so the final dict
  content per key is the same under every interleaving, and a sequential
  run is observationally faithful for the batch result.
-/

namespace SpotifyToYtm

/-- Track record, from line 13 of the source:
namedtuple with fields title, artist, album; equality is structural. -/
structure Track where
  title : String
  artist : String
  album : String
deriving DecidableEq, Repr

/-- Python exceptions that the modelled code can raise. -/
inductive PyError where
  /-- AttributeError, e.g. accessing the attribute title on a str. -/
  | attributeError
  /-- KeyError, a dict lookup of a missing key. -/
  | keyError
deriving DecidableEq, Repr

/-! ## chunks (source lines 24-32) -/

/-- Value returned by the Python function chunks: either the input list
itself (the branch for len(lst) < n returns lst, a flat List, despite the
declared return type List[List]), or a list of slices. -/
inductive ChunksResult (α : Type) where
  /-- Degenerate branch, returning the flat input list itself. -/
  | flat (lst : List α)
  /-- Normal branch, returning the accumulated list of slices. -/
  | chunked (cs : List (List α))
deriving DecidableEq, Repr

/-- Slice loop of chunks: for i in range(0, len(lst), chunk_size) append
lst[i : i + chunk_size].  A fuel argument gives structural termination;
fuel = lst.length suffices whenever 0 < k. -/
def chunkListAux (k : Nat) : Nat → List α → List (List α)
  | 0, _ => []
  | _, [] => []
  | fuel + 1, l => l.take k :: chunkListAux k fuel (l.drop k)

/-- Chunked branch of chunks: slices of size k in input order, the last
one shorter when k does not divide the length. -/
def chunkList (k : Nat) (l : List α) : List (List α) :=
  chunkListAux k l.length l

/-- Function chunks(lst, n).  The case n = 0 is outside the model (there
Python raises ZeroDivisionError on len(lst) // 0); every claim about
chunks has n > 0, and the one caller passes n = 32. -/
def chunks (lst : List α) (n : Nat) : ChunksResult α :=
  if lst.length < n then .flat lst
  else .chunked (chunkList (lst.length / n) lst)

/-! ## Resolver: the body of _video_id_for_track (source lines 57-62) -/

/-- One element of the list returned by the YTMusic search call; the
videoId field may be null. -/
structure SearchResult where
  videoId : Option String
deriving DecidableEq, Repr

/-- Python truthiness of the videoId field: None and the empty string are
falsy, every other string is truthy. -/
def truthy : Option String → Bool
  | none => false
  | some s => !s.isEmpty

/-- Selection loop of _video_id_for_track: return the videoId of the
first result whose videoId is truthy; falling off the loop returns
None. -/
def firstVideoId : List SearchResult → Option String
  | [] => none
  | r :: rest => if truthy r.videoId then r.videoId else firstVideoId rest

/-! ## The retry decorator, used as retry(delay=0.25, backoff=2, tries=N) -/

/-- Trace of one run of a retry-decorated call: the final outcome, the
number of attempts made, and the sleeps performed between attempts. -/
structure RetryTrace (α : Type) where
  result : Except Unit α
  calls : Nat
  delays : List ℚ

/-- Loop of the retry library: attempt f; on success return, on failure
decrement the remaining tries, re-raise when none remain, otherwise sleep
the current delay, multiply it by b, and try again.  The index i numbers
the attempts so that the oracle f can behave differently per attempt. -/
def retryRun (f : Nat → Except Unit α) (b : ℚ) : ℚ → Nat → Nat → RetryTrace α
  | _, _, 0 => ⟨.error (), 0, []⟩
  | d, i, t + 1 =>
    match f i with
    | .ok a => ⟨.ok a, 1, []⟩
    | .error () =>
      match t with
      | 0 => ⟨.error (), 1, []⟩
      | t' + 1 =>
        let r := retryRun f b (d * b) (i + 1) (t' + 1)
        ⟨r.result, r.calls + 1, d :: r.delays⟩

/-- Function _video_id_for_track under its decorator
retry(delay=0.25, backoff=2, tries=20), over a per-attempt search oracle:
attempt i either raises a transient error or returns a result list. -/
def videoIdForTrackRetried (search : Nat → Except Unit (List SearchResult)) :
    RetryTrace (Option String) :=
  retryRun (fun i => (search i).map firstVideoId) 2 (1/4 : ℚ) 0 20

/-! ## Batch resolution: video_ids_for_tracks (source lines 95-118) -/

/-- Shared dict video_id_for_track mapping Track keys to resolved
identifiers.  The Python dict assignment d[k] = v overwrites in place;
the model shadows with a cons instead, which is observationally equal for
lookups (the dict is never iterated or compared as a whole). -/
abbrev Dict := List (Track × Option String)

/-- Dict assignment d[k] = v, modelled by shadowing. -/
def dictInsert (d : Dict) (k : Track) (v : Option String) : Dict :=
  (k, v) :: d

/-- Dict lookup d[k], as an option; none models a KeyError. -/
def dictGet (d : Dict) (k : Track) : Option (Option String) :=
  (d.find? (fun p => p.1 = k)).map Prod.snd

/-- One element produced by iterating the value chunks(tracks, 32): a
slice of tracks in the chunked case, or a bare Track in the flat
degenerate case. -/
inductive PyChunk where
  | ofList (l : List Track)
  | ofTrack (t : Track)
deriving DecidableEq, Repr

/-- Iteration over the value returned by chunks: iterating a flat list
yields its Track elements; iterating a list of slices yields slices. -/
def chunkIter : ChunksResult Track → List PyChunk
  | .flat l => l.map .ofTrack
  | .chunked cs => cs.map .ofList

/-- Loop variable of the inner loop of _video_ids_for_chunk: a Track
when the chunk is a slice, or a String when the chunk is a bare Track,
since iterating a namedtuple yields its field values in order. -/
inductive PyVal where
  | track (t : Track)
  | str (s : String)
deriving DecidableEq, Repr

/-- Elements seen by the worker loop over its chunk. -/
def chunkElems : PyChunk → List PyVal
  | .ofList l => l.map .track
  | .ofTrack t => [.str t.title, .str t.artist, .str t.album]

/-- Body of _video_ids_for_chunk: resolve each loop element and store the
result under that element as key.  On a String element, the body of
_video_id_for_track evaluates the attribute access track.title on a str
and raises AttributeError (its retry wrapper catches, retries, and
finally re-raises the same error, so the worker still fails with it).
The resolve argument is the already-retried resolver outcome for a
genuine Track. -/
def runChunkElems (resolve : Track → Option String) (d : Dict) :
    List PyVal → Except PyError Dict
  | [] => .ok d
  | .track t :: rest => runChunkElems resolve (dictInsert d t (resolve t)) rest
  | .str _ :: _ => .error .attributeError

/-- One submitted worker task. -/
def runChunk (resolve : Track → Option String) (d : Dict) (c : PyChunk) :
    Except PyError Dict :=
  runChunkElems resolve d (chunkElems c)

/-- Loop collecting task.result() over all submitted workers: the first
raising worker propagates its exception to the caller. -/
def runChunks (resolve : Track → Option String) (d : Dict) :
    List PyChunk → Except PyError Dict
  | [] => .ok d
  | c :: cs =>
    match runChunk resolve d c with
    | .ok d' => runChunks resolve d' cs
    | .error e => .error e

/-- Lookup video_id_for_track[track] in the final generator expression;
a missing key raises KeyError. -/
def dictGetE (d : Dict) (t : Track) : Except PyError (Option String) :=
  match dictGet d t with
  | some v => .ok v
  | none => .error .keyError

/-- The final generator expression, reading the results back in input
order. -/
def lookupAll (d : Dict) : List Track → Except PyError (List (Option String))
  | [] => .ok []
  | t :: ts =>
    match dictGetE d t with
    | .ok v =>
      match lookupAll d ts with
      | .ok vs => .ok (v :: vs)
      | .error e => .error e
    | .error e => .error e

/-- Function video_ids_for_tracks(tracks): chunk the input, run one
worker per chunk over a shared dict that starts empty, then read the
results back in input order. -/
def video_ids_for_tracks (resolve : Track → Option String)
    (tracks : List Track) : Except PyError (List (Option String)) :=
  match runChunks resolve [] (chunkIter (chunks tracks 32)) with
  | .ok d => lookupAll d tracks
  | .error e => .error e

/-! ## Playlist creation: _create_playlist_youtube_music (lines 83-89) -/

/-- Arguments handed to the create_playlist call on the YTMusic client. -/
structure CreatePlaylistCall where
  title : String
  description : String
  video_ids : List (Option String)
deriving DecidableEq, Repr

/-- Function _create_playlist_youtube_music(title, tracks): materialise
the generator returned by video_ids_for_tracks and pass the resulting
list, as is, to create_playlist. -/
def create_playlist_youtube_music (resolve : Track → Option String)
    (title : String) (tracks : List Track) : Except PyError CreatePlaylistCall :=
  match video_ids_for_tracks resolve tracks with
  | .ok ids => .ok ⟨title, "Imported from Spotify", ids⟩
  | .error e => .error e

/-! ## Like replication: _like_song_youtube_music (lines 128-142) -/

/-- Terminal outcome printed at line 142 of the source. -/
inductive LikeOutcome where
  | LIKED
  | FAILED
deriving DecidableEq, Repr

/-- The guarded write: try rate_song, and on any exception print it and
continue; whatever the write does, execution proceeds to the re-read. -/
def tryRateWrite (rate : Nat → Except Unit Unit) (j : Nat) : Unit :=
  match rate j with
  | .ok u => u
  | .error _ => ()

/-- The loop while not changed and count < max_retries.  Here counter m
is the value returned by the m-th read of the liked-songs counter (read 0
is initial_track_count; iteration j issues write j and then performs read
j).  Returns the final changed flag and the number of iterations, which
equals the number of write attempts executed. -/
def likeLoop (rate : Nat → Except Unit Unit) (counter : Nat → Int)
    (initial : Int) : Nat → Nat → Bool × Nat
  | _, 0 => (false, 0)
  | j, t + 1 =>
    let _u := tryRateWrite rate j
    if counter j ≠ initial then (true, 1)
    else
      let p := likeLoop rate counter initial (j + 1) t
      (p.1, p.2 + 1)

/-- Function _like_song_youtube_music(video_id): read the initial count,
run up to max_retries = 5 write-plus-recheck iterations, and report LIKED
or FAILED together with the number of write attempts made. -/
def like_song_youtube_music (rate : Nat → Except Unit Unit)
    (counter : Nat → Int) : LikeOutcome × Nat :=
  let initial := counter 0
  let p := likeLoop rate counter initial 1 5
  (if p.1 then .LIKED else .FAILED, p.2)

/-! ## Helper lemmas about the chunk partitioner -/

lemma chunkListAux_nil (k fuel : Nat) : chunkListAux (α := α) k fuel [] = [] := by
  cases fuel <;> rfl

lemma chunkListAux_flatten {k : Nat} (hk : 0 < k) :
    ∀ (fuel : Nat) (l : List α), l.length ≤ fuel → (chunkListAux k fuel l).flatten = l := by
  intro fuel
  induction fuel with
  | zero =>
    intro l hl
    have : l = [] := by
      cases l with
      | nil => rfl
      | cons a l' => simp at hl
    subst this
    rfl
  | succ fuel ih =>
    intro l hl
    cases l with
    | nil => simp [chunkListAux_nil]
    | cons a l' =>
      have hdrop : ((a :: l').drop k).length ≤ fuel := by
        rw [List.length_drop, List.length_cons]
        rw [List.length_cons] at hl
        omega
      simp only [chunkListAux, List.flatten_cons]
      rw [ih _ hdrop, List.take_append_drop]

lemma chunkList_flatten {k : Nat} (hk : 0 < k) (l : List α) : (chunkList k l).flatten = l :=
  chunkListAux_flatten hk l.length l le_rfl

lemma chunkListAux_ne_nil {k fuel : Nat} {l : List α} (hl : l ≠ []) (hf : 0 < fuel) :
    chunkListAux k fuel l ≠ [] := by
  cases fuel with
  | zero => omega
  | succ fuel =>
    cases l with
    | nil => exact absurd rfl hl
    | cons a l' => simp [chunkListAux]

lemma chunkListAux_dropLast_length {k : Nat} (hk : 0 < k) :
    ∀ (fuel : Nat) (l : List α), l.length ≤ fuel →
      ∀ c ∈ (chunkListAux k fuel l).dropLast, c.length = k := by
  intro fuel
  induction fuel with
  | zero =>
    intro l hl c hc
    cases l with
    | nil => simp [chunkListAux_nil] at hc
    | cons a l' => simp at hl
  | succ fuel ih =>
    intro l hl c hc
    cases l with
    | nil => simp [chunkListAux_nil] at hc
    | cons a l' =>
      have hdl : ((a :: l').drop k).length = (a :: l').length - k :=
        List.length_drop _ _
      simp only [chunkListAux] at hc
      by_cases hd : (a :: l').drop k = []
      · rw [hd, chunkListAux_nil] at hc
        simp at hc
      · have hpos : 0 < ((a :: l').drop k).length := List.length_pos.mpr hd
        have hlen : k < (a :: l').length := by
          rw [hdl] at hpos
          omega
        have hlf : ((a :: l').drop k).length ≤ fuel := by
          rw [hdl]
          rw [List.length_cons] at hl hlen ⊢
          omega
        have hfuel : 0 < fuel := by omega
        rw [List.dropLast_cons_of_ne_nil (chunkListAux_ne_nil hd hfuel)] at hc
        rw [List.mem_cons] at hc
        rcases hc with hc | hc
        · subst hc
          rw [List.length_take]
          omega
        · exact ih _ hlf c hc

lemma chunkListAux_mem_length {k : Nat} (hk : 0 < k) :
    ∀ (fuel : Nat) (l : List α), l.length ≤ fuel →
      ∀ c ∈ chunkListAux k fuel l, 0 < c.length ∧ c.length ≤ k := by
  intro fuel
  induction fuel with
  | zero =>
    intro l hl c hc
    cases l with
    | nil => simp [chunkListAux_nil] at hc
    | cons a l' => simp at hl
  | succ fuel ih =>
    intro l hl c hc
    cases l with
    | nil => simp [chunkListAux_nil] at hc
    | cons a l' =>
      simp only [chunkListAux, List.mem_cons] at hc
      rcases hc with hc | hc
      · subst hc
        rw [List.length_take, List.length_cons]
        constructor <;> omega
      · refine ih _ ?_ c hc
        rw [List.length_drop, List.length_cons]
        rw [List.length_cons] at hl
        omega

lemma chunkListAux_length {k : Nat} (hk : 0 < k) :
    ∀ (fuel : Nat) (l : List α), 0 < l.length → l.length ≤ fuel →
      (chunkListAux k fuel l).length = (l.length - 1) / k + 1 := by
  intro fuel
  induction fuel with
  | zero => intro l h0 hl; omega
  | succ fuel ih =>
    intro l h0 hl
    cases l with
    | nil => simp at h0
    | cons a l' =>
      have hdl : ((a :: l').drop k).length = (a :: l').length - k :=
        List.length_drop _ _
      simp only [chunkListAux]
      by_cases hd : (a :: l').drop k = []
      · rw [hd, chunkListAux_nil]
        have hle : (a :: l').length ≤ k := by
          rw [hd] at hdl
          simp only [List.length_nil] at hdl
          omega
        rw [List.length_cons] at hle
        simp only [List.length_cons, List.length_nil]
        rw [Nat.div_eq_of_lt (by omega)]
      · have h0' : 0 < ((a :: l').drop k).length := List.length_pos.mpr hd
        have hlen : k < (a :: l').length := by
          rw [hdl] at h0'
          omega
        have hl' : ((a :: l').drop k).length ≤ fuel := by
          rw [hdl]
          rw [List.length_cons] at hl hlen ⊢
          omega
        rw [List.length_cons, ih _ h0' hl', hdl]
        rw [List.length_cons] at hlen ⊢
        have heq : l'.length + 1 - 1 = (l'.length + 1 - k - 1) + k := by omega
        rw [heq, Nat.add_div_right _ hk]

/-! ## Helper lemmas about the shared dict and the batch engine -/

/-- Sequence of dict writes performed by one worker over its slice. -/
def insertAll (resolve : Track → Option String) (d : Dict) : List Track → Dict
  | [] => d
  | t :: ts => insertAll resolve (dictInsert d t (resolve t)) ts

lemma dictGet_insert (d : Dict) (k : Track) (v : Option String) (k' : Track) :
    dictGet (dictInsert d k v) k' = if k' = k then some v else dictGet d k' := by
  simp only [dictInsert, dictGet, List.find?]
  by_cases h : k = k'
  · subst h
    simp
  · simp [h, Ne.symm h]

lemma insertAll_append (resolve : Track → Option String) (l₁ l₂ : List Track) :
    ∀ d : Dict, insertAll resolve d (l₁ ++ l₂) = insertAll resolve (insertAll resolve d l₁) l₂ := by
  induction l₁ with
  | nil => intro d; rfl
  | cons a l ih =>
    intro d
    simp only [List.cons_append, insertAll]
    exact ih _

lemma dictGet_insertAll_of_not_mem {resolve : Track → Option String} {t : Track}
    {l : List Track} (h : t ∉ l) : ∀ d : Dict, dictGet (insertAll resolve d l) t = dictGet d t := by
  induction l with
  | nil => intro d; rfl
  | cons a l ih =>
    intro d
    simp only [List.mem_cons, not_or] at h
    simp only [insertAll]
    rw [ih h.2, dictGet_insert, if_neg h.1]

lemma dictGet_insertAll_of_mem {resolve : Track → Option String} {t : Track}
    {l : List Track} (h : t ∈ l) : ∀ d : Dict, dictGet (insertAll resolve d l) t = some (resolve t) := by
  induction l with
  | nil => simp at h
  | cons a l ih =>
    intro d
    simp only [insertAll]
    by_cases ht : t ∈ l
    · exact ih ht _
    · have hta : t = a := by
        simp only [List.mem_cons] at h
        tauto
      subst hta
      rw [dictGet_insertAll_of_not_mem ht, dictGet_insert, if_pos rfl]

lemma runChunkElems_map_track (resolve : Track → Option String) (l : List Track) :
    ∀ d : Dict, runChunkElems resolve d (l.map .track) = .ok (insertAll resolve d l) := by
  induction l with
  | nil => intro d; rfl
  | cons a l ih => intro d; simp only [List.map_cons, runChunkElems, insertAll, ih]

lemma runChunks_map_ofList (resolve : Track → Option String) (cs : List (List Track)) :
    ∀ d : Dict, runChunks resolve d (cs.map .ofList) = .ok (insertAll resolve d cs.flatten) := by
  induction cs with
  | nil => intro d; rfl
  | cons c cs ih =>
    intro d
    simp only [List.map_cons, runChunks, runChunk, chunkElems, runChunkElems_map_track,
      List.flatten_cons, insertAll_append, ih]

lemma lookupAll_eq_map {resolve : Track → Option String} {d : Dict} :
    ∀ ts : List Track, (∀ t ∈ ts, dictGet d t = some (resolve t)) →
      lookupAll d ts = .ok (ts.map resolve) := by
  intro ts
  induction ts with
  | nil => intro _; rfl
  | cons t ts ih =>
    intro h
    simp only [lookupAll, dictGetE, h t (List.mem_cons_self t ts),
      ih (fun u hu => h u (List.mem_cons_of_mem t hu)), List.map_cons]

/-! ## The three behaviours of the batch engine -/

lemma video_ids_for_tracks_nil (resolve : Track → Option String) :
    video_ids_for_tracks resolve [] = .ok [] := rfl

lemma video_ids_for_tracks_degenerate (resolve : Track → Option String)
    (t : Track) (ts : List Track) (h : (t :: ts).length < 32) :
    video_ids_for_tracks resolve (t :: ts) = .error .attributeError := by
  unfold video_ids_for_tracks
  rw [chunks, if_pos h]
  simp [chunkIter, runChunks, runChunk, chunkElems, runChunkElems]

lemma video_ids_for_tracks_multi (resolve : Track → Option String)
    (tracks : List Track) (h : 32 ≤ tracks.length) :
    video_ids_for_tracks resolve tracks = .ok (tracks.map resolve) := by
  have hk : 0 < tracks.length / 32 := Nat.le_div_iff_mul_le (by norm_num) |>.mpr (by omega)
  unfold video_ids_for_tracks
  rw [chunks, if_neg (Nat.not_lt.mpr h)]
  show (match runChunks resolve []
      ((chunkList (tracks.length / 32) tracks).map .ofList) with
    | .ok d => lookupAll d tracks
    | .error e => .error e) = _
  rw [runChunks_map_ofList, chunkList_flatten hk]
  exact lookupAll_eq_map tracks (fun t ht => dictGet_insertAll_of_mem ht _)

lemma video_ids_for_tracks_ok {resolve : Track → Option String}
    {tracks : List Track} {out : List (Option String)}
    (h : video_ids_for_tracks resolve tracks = .ok out) : out = tracks.map resolve := by
  rcases Nat.lt_or_ge tracks.length 32 with hl | hl
  · cases tracks with
    | nil =>
      rw [video_ids_for_tracks_nil] at h
      cases h
      rfl
    | cons t ts =>
      rw [video_ids_for_tracks_degenerate resolve t ts hl] at h
      cases h
  · rw [video_ids_for_tracks_multi resolve tracks hl] at h
    cases h
    rfl

/-! ## Helper lemmas about the like-confirmation loop -/

lemma likeLoop_rate_irrelevant (rate rate' : Nat → Except Unit Unit)
    (counter : Nat → Int) (initial : Int) :
    ∀ (t j : Nat), likeLoop rate counter initial j t = likeLoop rate' counter initial j t := by
  intro t
  induction t with
  | zero => intro j; rfl
  | succ t ih =>
    intro j
    simp only [likeLoop]
    rw [ih]

lemma likeLoop_const (rate : Nat → Except Unit Unit) (counter : Nat → Int)
    (initial : Int) :
    ∀ (t j : Nat), (∀ m, j ≤ m → m < j + t → counter m = initial) →
      likeLoop rate counter initial j t = (false, t) := by
  intro t
  induction t with
  | zero => intro j _; rfl
  | succ t ih =>
    intro j h
    have hj : counter j = initial := h j le_rfl (by omega)
    simp only [likeLoop]
    rw [if_neg (by simp [hj]), ih (j + 1) (fun m hm1 hm2 => h m (by omega) (by omega))]

lemma likeLoop_true_iff (rate : Nat → Except Unit Unit) (counter : Nat → Int)
    (initial : Int) :
    ∀ (t j : Nat), (likeLoop rate counter initial j t).1 = true ↔
      ∃ m, j ≤ m ∧ m < j + t ∧ counter m ≠ initial := by
  intro t
  induction t with
  | zero =>
    intro j
    constructor
    · intro h
      simp [likeLoop] at h
    · rintro ⟨m, h1, h2, _⟩
      omega
  | succ t ih =>
    intro j
    by_cases hj : counter j = initial
    · simp only [likeLoop]
      rw [if_neg (by simp [hj])]
      constructor
      · intro h
        have h' := (ih (j + 1)).mp h
        rcases h' with ⟨m, h1, h2, hm⟩
        exact ⟨m, by omega, by omega, hm⟩
      · rintro ⟨m, h1, h2, hm⟩
        have hmj : m ≠ j := fun he => hm (he ▸ hj)
        exact (ih (j + 1)).mpr ⟨m, by omega, by omega, hm⟩
    · simp only [likeLoop]
      rw [if_pos hj]
      exact iff_of_true rfl ⟨j, le_rfl, by omega, hj⟩

/-! ## Claims -/

/-- C1: the claimed contract (output of batch resolution has the same
length and order as the input, also in the degenerate case of fewer than
32 tracks) is broken by the code: evaluating the engine on a single-track
input shows that it raises AttributeError instead of returning a
one-element list, because chunks returns the flat track list, each Track
is submitted as a chunk, and the worker then iterates the string fields
of the Track. -/
theorem batch_resolution_degenerate_eval :
    video_ids_for_tracks (fun _ => some "v") [⟨"t", "a", "b"⟩]
      = .error .attributeError := rfl

/-- C2: for every non-empty input of fewer than 32 tracks, batch
resolution raises AttributeError instead of returning identifiers. -/
theorem batch_resolution_small_input_raises (resolve : Track → Option String)
    (tracks : List Track) (h1 : 0 < tracks.length) (h2 : tracks.length < 32) :
    video_ids_for_tracks resolve tracks = .error .attributeError := by
  cases tracks with
  | nil => simp at h1
  | cons t ts => exact video_ids_for_tracks_degenerate resolve t ts h2

/-- Witness for C2 at a concrete one-track input. -/
theorem batch_resolution_small_input_raises_witness :
    video_ids_for_tracks (fun _ => none) [⟨"x", "y", "z"⟩]
      = .error .attributeError :=
  batch_resolution_small_input_raises (fun _ => none) [⟨"x", "y", "z"⟩]
    (by decide) (by decide)

/-- C3 counterexample: for L = 10 and W = 3 the code produces four chunks
of sizes 3, 3, 3, 1, so the number of chunks exceeds the worker budget
and the final chunk does not absorb the remainder (the claimed
partition [[0,1,2],[3,4,5],[6,7,8,9]] is not produced). -/
theorem chunks_count_exceeds_budget_cex :
    chunks (List.range 10) 3 = .chunked [[0, 1, 2], [3, 4, 5], [6, 7, 8], [9]] ∧
    chunks (List.range 10) 3 ≠ .chunked [[0, 1, 2], [3, 4, 5], [6, 7, 8, 9]] ∧
    ¬ ([[0, 1, 2], [3, 4, 5], [6, 7, 8], [9]] : List (List Nat)).length ≤ 3 := by
  refine ⟨by decide, by decide, by decide⟩

/-- C3 amended: for L ≥ W > 0 the chunks concatenate to the original list
in order, every chunk is non-empty with size at most floor(L/W), every
chunk except the last has size exactly floor(L/W), and the number of
chunks is (L-1)/floor(L/W) + 1 (the ceiling of L / floor(L/W)), which can
exceed W; the last chunk holds the remainder L mod floor(L/W) when that
is non-zero, rather than absorbing it into a larger chunk. -/
theorem chunks_partition_amended {α : Type} (lst : List α) (n : Nat)
    (hn : 0 < n) (hL : n ≤ lst.length) :
    chunks lst n = .chunked (chunkList (lst.length / n) lst) ∧
    (chunkList (lst.length / n) lst).flatten = lst ∧
    (∀ c ∈ (chunkList (lst.length / n) lst).dropLast, c.length = lst.length / n) ∧
    (∀ c ∈ chunkList (lst.length / n) lst,
      0 < c.length ∧ c.length ≤ lst.length / n) ∧
    (chunkList (lst.length / n) lst).length
      = (lst.length - 1) / (lst.length / n) + 1 := by
  have hk : 0 < lst.length / n := Nat.le_div_iff_mul_le hn |>.mpr (by omega)
  have h0 : 0 < lst.length := by omega
  refine ⟨?_, chunkList_flatten hk lst, ?_, ?_, ?_⟩
  · rw [chunks, if_neg (Nat.not_lt.mpr hL)]
  · exact chunkListAux_dropLast_length hk lst.length lst le_rfl
  · exact chunkListAux_mem_length hk lst.length lst le_rfl
  · exact chunkListAux_length hk lst.length lst h0 le_rfl

/-- Witness for C3 at L = 10, W = 3. -/
theorem chunks_partition_amended_witness :
    chunks (List.range 10) 3 = .chunked (chunkList (((List.range 10).length) / 3) (List.range 10)) ∧
    (chunkList (((List.range 10).length) / 3) (List.range 10)).flatten = List.range 10 ∧
    (∀ c ∈ (chunkList (((List.range 10).length) / 3) (List.range 10)).dropLast,
      c.length = (List.range 10).length / 3) ∧
    (∀ c ∈ chunkList (((List.range 10).length) / 3) (List.range 10),
      0 < c.length ∧ c.length ≤ (List.range 10).length / 3) ∧
    (chunkList (((List.range 10).length) / 3) (List.range 10)).length
      = ((List.range 10).length - 1) / ((List.range 10).length / 3) + 1 :=
  chunks_partition_amended (List.range 10) 3 (by decide) (by decide)

/-- C4: the claim that chunks returns a single degenerate chunk equal to
the whole input when L < W is broken: evaluating chunks on a one-track
list with budget 32 returns the flat input list itself, not the
one-element partition. -/
theorem chunks_flat_return_eval :
    chunks [(⟨"t", "a", "b"⟩ : Track)] 32 = .flat [⟨"t", "a", "b"⟩] ∧
    chunks [(⟨"t", "a", "b"⟩ : Track)] 32 ≠ .chunked [[⟨"t", "a", "b"⟩]] := by
  refine ⟨by decide, by decide⟩

/-- C5 counterexample: a 32-track playlist in which no track resolves
shows that the creation call receives the unfiltered identifier list, 32
None entries included, contradicting the claim that absent identifiers
are filtered out before the call. -/
theorem create_playlist_passes_none_cex :
    create_playlist_youtube_music (fun _ => none) "p"
        (List.replicate 32 ⟨"t", "a", "b"⟩)
      = .ok ⟨"p", "Imported from Spotify", List.replicate 32 none⟩ ∧
    none ∈ List.replicate 32 (none : Option String) := by
  refine ⟨rfl, by decide⟩

/-- C5 amended: whenever batch resolution succeeds, the creation call is
issued with the resolved identifier list exactly as produced — one entry
per input track, in input order, with absent (None) entries passed
through unfiltered. -/
theorem create_playlist_passes_ids_unfiltered (resolve : Track → Option String)
    (title : String) (tracks : List Track) (ids : List (Option String))
    (h : video_ids_for_tracks resolve tracks = .ok ids) :
    create_playlist_youtube_music resolve title tracks
      = .ok ⟨title, "Imported from Spotify", ids⟩ ∧
    ids = tracks.map resolve := by
  refine ⟨?_, video_ids_for_tracks_ok h⟩
  unfold create_playlist_youtube_music
  rw [h]

/-- Witness for C5 at a concrete 32-track input with an unresolving
resolver. -/
theorem create_playlist_passes_ids_unfiltered_witness :
    (create_playlist_youtube_music (fun _ => none) "p"
        (List.replicate 32 ⟨"t", "a", "b"⟩)
      = .ok ⟨"p", "Imported from Spotify", List.replicate 32 none⟩) ∧
    List.replicate 32 (none : Option String)
      = (List.replicate 32 (⟨"t", "a", "b"⟩ : Track)).map (fun _ => none) :=
  create_playlist_passes_ids_unfiltered (fun _ => none) "p"
    (List.replicate 32 ⟨"t", "a", "b"⟩) (List.replicate 32 none) rfl

/-- C6: the like operation reaches LIKED exactly when one of the five
re-reads differs from the initial read, and with a counter that never
changes across all six reads it reaches FAILED after exactly five write
attempts. -/
theorem like_song_liked_iff_counter_changed (rate : Nat → Except Unit Unit)
    (counter : Nat → Int) :
    ((like_song_youtube_music rate counter).1 = .LIKED ↔
      ∃ m, 1 ≤ m ∧ m ≤ 5 ∧ counter m ≠ counter 0) ∧
    ((∀ m, m ≤ 5 → counter m = counter 0) →
      like_song_youtube_music rate counter = (.FAILED, 5)) := by
  constructor
  · have h := likeLoop_true_iff rate counter (counter 0) 5 1
    simp only [like_song_youtube_music]
    by_cases hp : (likeLoop rate counter (counter 0) 1 5).1
    · rw [if_pos hp]
      rw [hp] at h
      simp only [true_iff] at h
      rcases h with ⟨m, h1, h2, hm⟩
      exact iff_of_true rfl ⟨m, h1, by omega, hm⟩
    · rw [if_neg hp]
      constructor
      · intro hcon
        cases hcon
      · rintro ⟨m, h1, h2, hm⟩
        exact absurd (h.mpr ⟨m, h1, by omega, hm⟩) hp
  · intro h
    have hc := likeLoop_const rate counter (counter 0) 5 1
      (fun m hm1 hm2 => h m (by omega))
    simp only [like_song_youtube_music, hc]
    rfl

/-- Witness for C6 at a constant counter. -/
theorem like_song_liked_iff_counter_changed_witness :
    like_song_youtube_music (fun _ => .ok ()) (fun _ => 10) = (.FAILED, 5) :=
  (like_song_liked_iff_counter_changed (fun _ => .ok ()) (fun _ => 10)).2
    (fun _ _ => rfl)

/-- C7: the retried resolver makes exactly 20 calls both when the search
fails 19 times and then succeeds (returning the successful result) and
when it fails all 20 times (propagating the failure), and the sleeps
between attempts start at 1/4 time-unit and double each attempt. -/
theorem resolver_retry_schedule (rs : List SearchResult) :
    (videoIdForTrackRetried fun i => if i < 19 then .error () else .ok rs).result
      = .ok (firstVideoId rs) ∧
    (videoIdForTrackRetried fun i => if i < 19 then .error () else .ok rs).calls = 20 ∧
    (videoIdForTrackRetried fun i => if i < 19 then .error () else .ok rs).delays
      = (List.range 19).map (fun j => (1/4 : ℚ) * 2 ^ j) ∧
    (videoIdForTrackRetried fun _ => .error ()).result = .error () ∧
    (videoIdForTrackRetried fun _ => .error ()).calls = 20 ∧
    (videoIdForTrackRetried fun _ => .error ()).delays
      = (List.range 19).map (fun j => (1/4 : ℚ) * 2 ^ j) := by
  refine ⟨rfl, rfl, ?_, rfl, rfl, ?_⟩ <;>
  · simp only [videoIdForTrackRetried, retryRun]
    norm_num [List.range_succ]

/-- C8: the resolver returns the identifier of the first search result
whose identifier is present (non-empty), as a normal optional value:
absent on an empty result list or when no result carries an identifier,
the identifier "abc" on the stub list with a null first entry. -/
theorem resolver_first_present_id (rs : List SearchResult) :
    firstVideoId rs = (rs.find? (fun r => truthy r.videoId)).bind SearchResult.videoId ∧
    firstVideoId [⟨none⟩, ⟨some "abc"⟩] = some "abc" ∧
    firstVideoId [] = none := by
  refine ⟨?_, rfl, rfl⟩
  induction rs with
  | nil => rfl
  | cons r rest ih =>
    simp only [firstVideoId, List.find?]
    by_cases h : truthy r.videoId
    · simp [h]
    · simp [h, ih]

/-- C9: the like operation is insensitive to the outcome of the
mark-as-liked write — a write that always throws yields the same result
as one that always succeeds, so the exception never propagates — and
with a counter that never changes it still terminates in FAILED after
five attempts. -/
theorem like_song_write_errors_nonfatal (rate rate' : Nat → Except Unit Unit)
    (counter : Nat → Int) :
    like_song_youtube_music rate counter = like_song_youtube_music rate' counter ∧
    ((∀ m, m ≤ 5 → counter m = counter 0) →
      like_song_youtube_music rate counter = (.FAILED, 5)) := by
  constructor
  · simp only [like_song_youtube_music,
      likeLoop_rate_irrelevant rate rate' counter (counter 0) 5 1]
  · intro h
    have hc := likeLoop_const rate counter (counter 0) 5 1
      (fun m hm1 hm2 => h m (by omega))
    simp only [like_song_youtube_music, hc]
    rfl

/-- Witness for C9: an always-throwing write against a never-changing
counter behaves like an always-succeeding write and ends in FAILED after
five attempts. -/
theorem like_song_write_errors_nonfatal_witness :
    (like_song_youtube_music (fun _ => .error ()) (fun _ => 10)
      = like_song_youtube_music (fun _ => .ok ()) (fun _ => 10)) ∧
    like_song_youtube_music (fun _ => .error ()) (fun _ => 10) = (.FAILED, 5) := by
  have h := like_song_write_errors_nonfatal (fun _ => .error ()) (fun _ => .ok ())
    (fun _ => 10)
  exact ⟨h.1, h.2 (fun _ _ => rfl)⟩

/-- C10: whenever batch resolution succeeds, two positions holding the
same Track value receive the same resolved identifier, namely the
resolver output for that track, because results are keyed by Track value
and read back per position. -/
theorem batch_duplicate_tracks_consistent (resolve : Track → Option String)
    (tracks : List Track) (out : List (Option String)) (i j : Nat) (t : Track)
    (h : video_ids_for_tracks resolve tracks = .ok out)
    (hi : tracks[i]? = some t) (hj : tracks[j]? = some t) :
    out[i]? = some (resolve t) ∧ out[j]? = some (resolve t) := by
  have hout := video_ids_for_tracks_ok h
  subst hout
  rw [List.getElem?_map, List.getElem?_map, hi, hj]
  exact ⟨rfl, rfl⟩

/-- Witness for C10: a 33-track batch (chunked into 33 single-track
chunks) holding the same track at positions 0 and 32 — two different
chunks — resolves both positions to the same identifier. -/
theorem batch_duplicate_tracks_consistent_witness :
    (List.replicate 33 (some "v") : List (Option String))[0]? = some (some "v") ∧
    (List.replicate 33 (some "v") : List (Option String))[32]? = some (some "v") :=
  batch_duplicate_tracks_consistent (fun _ => some "v")
    (List.replicate 33 ⟨"t", "a", "b"⟩) (List.replicate 33 (some "v")) 0 32
    ⟨"t", "a", "b"⟩ rfl (by decide) (by decide)

end SpotifyToYtm
